import Mathlib

/-!
Verification of the post-turn quality stop hook
(`src/hooks/post-turn-quality-stop-hook.py`).

Shallow embedding conventions:
* Python strings are Lean `String`s (their `data` field is the honest
  list-of-characters model of a Python `str`).
* Python `int` is `Int`; Python floor division `//` is `Int.fdiv`.
* Python slicing `t[:j]` / `t[i:]` (with possibly negative or zero indices)
  is modelled by `pyTake` / `pyDropIdx`.
* Subprocess execution is modelled by an oracle: a `Sys` record carries a
  stream of pending `CompletedProc` results, a log of issued commands and
  the list of lines printed to standard output.  Each call to `run` consumes
  the next oracle response, so repeated invocations of the same command may
  observe different results, exactly as in a real execution.
* A `main` result of `none` models an uncaught Python exception (the process
  dies with a traceback and a non-zero exit status); `some code` models a
  normal `SystemExit(code)`.
-/

/-- Python whitespace test (the characters matched by `str.strip()`,
`str.split()` and the `\s` class of the Makefile rule regex, restricted to
ASCII). -/
def pyIsSpace (c : Char) : Bool :=
  c == ' ' || c == '\t' || c == '\n' || c == '\r' || c == '\x0b' || c == '\x0c'

/-- Python `str.strip()`: remove whitespace from both ends. -/
def pyStrip (s : String) : String :=
  String.mk (((s.data.dropWhile pyIsSpace).reverse.dropWhile pyIsSpace).reverse)

/-- Python slicing `t[:j]` for an arbitrary (possibly negative) bound `j`. -/
def pyTake (t : List Char) (j : Int) : List Char :=
  if 0 ≤ j then t.take j.toNat else t.take (t.length - (-j).toNat)

/-- Python slicing `t[i:]` for an arbitrary (possibly negative) start `i`.
Note `t[0:]` is the whole string, which is why Python's `t[-half:]` with
`half = 0` degenerates to the whole string. -/
def pyDropIdx (t : List Char) (i : Int) : List Char :=
  if 0 ≤ i then t.drop i.toNat else t.drop (t.length - (-i).toNat)

/-- The fixed marker inserted by `truncate` (28 characters). -/
def truncMarker : String := "\n... (output truncated) ...\n"

/-- Model of `truncate` from the hook: if the text fits in the budget it is returned
unchanged, otherwise the first and last `max_chars // 2` characters are kept
around the fixed marker. -/
def truncate (text : String) (max_chars : Int) : String :=
  if (text.length : Int) ≤ max_chars then text
  else
    let half : Int := Int.fdiv max_chars 2
    String.mk (pyTake text.data half ++ truncMarker.data ++ pyDropIdx text.data (-half))

theorem pyTake_of_nonneg (t : List Char) (j : Int) (h : 0 ≤ j) :
    pyTake t j = t.take j.toNat := by
  simp [pyTake, h]

theorem pyDropIdx_of_neg (t : List Char) (i : Int) (h : ¬ 0 ≤ i) :
    pyDropIdx t i = t.drop (t.length - (-i).toNat) := by
  simp [pyDropIdx, h]

theorem truncate_of_le (t : String) (m : Int) (h : (t.length : Int) ≤ m) :
    truncate t m = t := by
  simp [truncate, h]

theorem truncate_of_gt (t : String) (m : Int) (h : ¬ (t.length : Int) ≤ m) :
    truncate t m =
      String.mk (pyTake t.data (Int.fdiv m 2) ++ truncMarker.data ++
        pyDropIdx t.data (-(Int.fdiv m 2))) := by
  simp only [truncate, h, if_false]

/-- Unfolding of the truncated branch for a budget of at least 2: with
`k = (m.fdiv 2).toNat` the result keeps the first `k` and last `k` characters
around the marker. -/
theorem truncate_data_of_gt (t : String) (m : Int) (h2 : 2 ≤ m)
    (h : ¬ (t.length : Int) ≤ m) :
    (truncate t m).data =
      t.data.take (Int.fdiv m 2).toNat ++ truncMarker.data ++
        t.data.drop (t.data.length - (Int.fdiv m 2).toNat) := by
  have hfd : Int.fdiv m 2 = m / 2 := Int.fdiv_eq_ediv m (by norm_num)
  have hpos : 1 ≤ Int.fdiv m 2 := by rw [hfd]; omega
  rw [truncate_of_gt t m h]
  rw [pyTake_of_nonneg _ _ (by omega)]
  rw [pyDropIdx_of_neg _ _ (by omega)]
  simp [Int.neg_neg]

theorem truncate_idem_of_two_le (t : String) (m : Int) (h2 : 2 ≤ m) :
    truncate (truncate t m) m = truncate t m := by
  by_cases hle : (t.length : Int) ≤ m
  · rw [truncate_of_le t m hle, truncate_of_le t m hle]
  · have hfd : Int.fdiv m 2 = m / 2 := Int.fdiv_eq_ediv m (by norm_num)
    set k : Nat := (Int.fdiv m 2).toNat with hkdef
    have hkint : (k : Int) = Int.fdiv m 2 := by
      rw [hkdef, Int.toNat_of_nonneg]; rw [hfd]; omega
    have hk1 : 1 ≤ k := by omega
    have hkm : 2 * (k : Int) ≤ m ∧ m ≤ 2 * (k : Int) + 1 := by
      rw [hkint, hfd]; omega
    have hn : m < (t.data.length : Int) := by
      have : ¬ ((t.data.length : Int) ≤ m) := hle
      omega
    have hkn : k ≤ t.data.length := by omega
    have hkn' : k ≤ t.length := hkn
    have hmark : truncMarker.data.length = 28 := by decide
    have htk : (t.data.take k).length = k := by
      simp [List.length_take]; omega
    -- the truncated value and its length
    have hr : (truncate t m).data =
        t.data.take k ++ truncMarker.data ++ t.data.drop (t.data.length - k) :=
      truncate_data_of_gt t m h2 hle
    have hlen : (truncate t m).data.length = k + 28 + k := by
      rw [hr]
      simp only [List.length_append, htk, hmark, List.length_drop]
      omega
    have hgt2 : ¬ (((truncate t m).length : Int) ≤ m) := by
      have : (truncate t m).length = k + 28 + k := hlen
      rw [this]; push_cast; omega
    -- second truncation re-selects exactly the same prefix and suffix
    have hres : (truncate (truncate t m)  m).data =
        (truncate t m).data.take k ++ truncMarker.data ++
          (truncate t m).data.drop ((truncate t m).data.length - k) :=
      truncate_data_of_gt (truncate t m) m h2 hgt2
    have htake : (truncate t m).data.take k = t.data.take k := by
      rw [hr, List.append_assoc]
      rw [List.take_append_of_le_length (by rw [htk])]
      rw [List.take_take _ _ _, Nat.min_self]
    have hdrop : (truncate t m).data.drop ((truncate t m).data.length - k) =
        t.data.drop (t.data.length - k) := by
      rw [hlen, hr]
      have hlen2 : (t.data.take k ++ truncMarker.data).length = k + 28 := by
        simp only [List.length_append, htk, hmark]
      have heq : k + 28 + k - k = (t.data.take k ++ truncMarker.data).length := by
        rw [hlen2]; omega
      rw [heq]
      exact List.drop_left _ _
    apply String.ext
    rw [hres, htake, hdrop, hr]

/-- C4 (amended): for every text and every budget of at least 2, truncating
twice with the same budget equals truncating once. -/
theorem truncate_twice_eq_truncate_once (t : String) (m : Int) (h2 : 2 ≤ m) :
    truncate (truncate t m) m = truncate t m :=
  truncate_idem_of_two_le t m h2

/-- Witness for the amended C4 theorem at a concrete text and budget. -/
theorem truncate_twice_eq_truncate_once_witness :
    truncate (truncate "abcdef" 3) 3 = truncate "abcdef" 3 :=
  truncate_twice_eq_truncate_once "abcdef" 3 (by decide)

/-- C4 counterexample: with budget 0 the truncated text is the marker plus the
whole original text (Python `text[-0:]` is the whole string), so a second
truncation prepends the marker again and the result differs. -/
theorem truncate_twice_ne_truncate_once_at_zero :
    truncate (truncate "ab" 0) 0 ≠ truncate "ab" 0 := by decide

/-- Python `str.lower()` (ASCII case mapping, which covers every extension the
hook compares against). -/
def pyLower (s : String) : String :=
  String.mk (s.data.map Char.toLower)

/-- Python `"sep".join(xs)`. -/
def pyJoin (sep : String) : List String → String
  | [] => ""
  | a :: rest => rest.foldl (fun acc x => acc ++ sep ++ x) a

/-- Split a character list at every separator matched by `p` (the separator is
dropped; empty pieces are kept, as Python's separator-based splitting does). -/
def splitOnPred (p : Char → Bool) : List Char → List (List Char)
  | [] => [[]]
  | c :: rest =>
    match splitOnPred p rest with
    | [] => if p c then [[], []] else [[c]]
    | h :: t => if p c then [] :: h :: t else (c :: h) :: t

/-- Python `str.split()` (split on whitespace runs, dropping empty pieces). -/
def pySplitWs (s : String) : List String :=
  ((splitOnPred pyIsSpace s.data).map String.mk).filter (fun x => !(x == ""))

/-- Python `str.splitlines()` as used on command output (the hook strips every
line and drops empty ones afterwards, so modelling only the newline separator
is faithful for its use sites). -/
def pySplitLines (s : String) : List String :=
  (splitOnPred (fun c => c == '\n') s.data).map String.mk

/-- Substring test, Python's `needle in hay` for strings. -/
def containsSubstr (hay needle : String) : Bool :=
  hay.data.tails.any (fun t => needle.data.isPrefixOf t)

/-- Python `pathlib.PurePath(f).name`: the final path component, after
dropping empty and `.` components (POSIX flavour, the one the hook runs on
for repository-relative paths). -/
def pyPathName (f : String) : String :=
  ((((splitOnPred (fun c => c == '/') f.data).map String.mk).filter
      (fun c => !(c == "") && !(c == "."))).getLast?).getD ""

/-- Python `pathlib.PurePath(f).suffix`: the extension of the final component
including the dot; empty when the name has no dot, starts with its only dot,
or ends in a dot. -/
def pySuffix (f : String) : String :=
  let name := (pyPathName f).data
  let n := name.length
  let tailLen := (name.reverse.takeWhile (fun c => !(c == '.'))).length
  if tailLen = n then ""
  else
    let i := n - 1 - tailLen
    if 0 < i ∧ i < n - 1 then String.mk (name.drop i) else ""

/-- Extension sets from the hook (`PY_TS_EXTS`, `RUST_EXTS`, `MD_EXTS`). -/
def PY_TS_EXTS : List String := [".py", ".pyi", ".ts", ".tsx", ".mts", ".cts"]

def RUST_EXTS : List String := [".rs"]

def MD_EXTS : List String := [".md", ".mdx", ".markdown"]

/-- The closed three-category universe of the hook's `categories` mapping. -/
structure Categories where
  python_ts : Bool
  rust : Bool
  markdown : Bool
deriving DecidableEq, Repr

/-- Model of `default_categories` from the hook: every category starts disabled. -/
def default_categories : Categories := ⟨false, false, false⟩

/-- The lowercased extension a path is classified by. -/
def extKey (f : String) : String := pyLower (pySuffix f)

/-- Model of `detect_categories` from the hook: fold over the changed files, switching
a category on when a file's lowercase suffix lies in that category's
extension set. -/
def detect_categories (files : List String) : Categories :=
  files.foldl
    (fun cats f =>
      let ext := pyLower (pySuffix f)
      { python_ts := cats.python_ts || decide (ext ∈ PY_TS_EXTS)
        rust := cats.rust || decide (ext ∈ RUST_EXTS)
        markdown := cats.markdown || decide (ext ∈ MD_EXTS) })
    default_categories

theorem detect_categories_go (files : List String) (c : Categories) :
    files.foldl
      (fun cats f =>
        let ext := pyLower (pySuffix f)
        { python_ts := cats.python_ts || decide (ext ∈ PY_TS_EXTS)
          rust := cats.rust || decide (ext ∈ RUST_EXTS)
          markdown := cats.markdown || decide (ext ∈ MD_EXTS) }) c =
    { python_ts := c.python_ts || files.any (fun f => decide (extKey f ∈ PY_TS_EXTS))
      rust := c.rust || files.any (fun f => decide (extKey f ∈ RUST_EXTS))
      markdown := c.markdown || files.any (fun f => decide (extKey f ∈ MD_EXTS)) } := by
  induction files generalizing c with
  | nil => cases c; simp
  | cons f rest ih =>
    simp only [List.foldl_cons, List.any_cons, ih, extKey]
    cases c
    simp [Bool.or_assoc]

/-- Characterization of `detect_categories` as an existence check over the
lowercased suffixes. -/
theorem detect_categories_eq_any (files : List String) :
    detect_categories files =
      { python_ts := files.any (fun f => decide (extKey f ∈ PY_TS_EXTS))
        rust := files.any (fun f => decide (extKey f ∈ RUST_EXTS))
        markdown := files.any (fun f => decide (extKey f ∈ MD_EXTS)) } := by
  have h := detect_categories_go files default_categories
  simpa [detect_categories, default_categories] using h

/-- C5: category classification is a pure function of the changed-path list in
which (a) the three extension sets are pairwise disjoint, so a path matches at
most one category; (b) a category is on exactly when some path's lowercase
extension lies in its set, so membership depends only on the lowercase
extension; and (c) a path whose extension lies in no set contributes to no
category. -/
theorem detect_categories_spec :
    ((∀ e ∈ PY_TS_EXTS, e ∉ RUST_EXTS ∧ e ∉ MD_EXTS) ∧
      (∀ e ∈ RUST_EXTS, e ∉ MD_EXTS)) ∧
    (∀ files : List String,
      detect_categories files =
        { python_ts := files.any (fun f => decide (extKey f ∈ PY_TS_EXTS))
          rust := files.any (fun f => decide (extKey f ∈ RUST_EXTS))
          markdown := files.any (fun f => decide (extKey f ∈ MD_EXTS)) }) ∧
    (∀ (files : List String) (f : String),
      extKey f ∉ PY_TS_EXTS → extKey f ∉ RUST_EXTS → extKey f ∉ MD_EXTS →
      detect_categories (files ++ [f]) = detect_categories files) := by
  refine ⟨by decide, detect_categories_eq_any, ?_⟩
  intro files f h1 h2 h3
  rw [detect_categories_eq_any, detect_categories_eq_any]
  simp [List.any_append, h1, h2, h3]

/-- Loop of `dedup_preserve_order`: `out` plays the role of both the `out`
list and the `seen` set of the source (the set always holds exactly the
elements of `out`). -/
def dedupGo (out : List String) : List String → List String
  | [] => out
  | x :: rest => if x ∈ out then dedupGo out rest else dedupGo (out ++ [x]) rest

/-- Model of `dedup_preserve_order` from the hook: drop repeated items, keeping the
first occurrence of each. -/
def dedup_preserve_order (items : List String) : List String :=
  dedupGo [] items

/-- Specification-side definition, following the spec's words: the distinct
elements of the input in order of first occurrence (take the head, then
recursively dedup the tail with all copies of the head removed). -/
def firstOccurrenceDedup : List String → List String
  | [] => []
  | x :: xs => x :: firstOccurrenceDedup (xs.filter (fun a => !(a == x)))
termination_by l => l.length
decreasing_by
  simp only [List.length_cons]
  exact Nat.lt_succ_of_le (List.length_filter_le _ _)

theorem dedupGo_append_of_length_le (n : Nat) :
    ∀ xs : List String, xs.length ≤ n → ∀ out : List String,
      dedupGo out xs = out ++ dedupGo [] (xs.filter (fun a => decide (a ∉ out))) := by
  induction n with
  | zero =>
    intro xs hxs out
    have hnil : xs = [] := List.eq_nil_of_length_eq_zero (Nat.le_zero.mp hxs)
    subst hnil
    simp [dedupGo]
  | succ n ih =>
    intro xs hxs out
    cases xs with
    | nil => simp [dedupGo]
    | cons x rest =>
      have hrest : rest.length ≤ n := by
        simp only [List.length_cons] at hxs; omega
      by_cases hx : x ∈ out
      · simp only [dedupGo, if_pos hx]
        rw [ih rest hrest out]
        have hfilter : (x :: rest).filter (fun a => decide (a ∉ out)) =
            rest.filter (fun a => decide (a ∉ out)) := by
          simp [List.filter_cons, hx]
        rw [hfilter]
      · have hfilter : (x :: rest).filter (fun a => decide (a ∉ out)) =
            x :: rest.filter (fun a => decide (a ∉ out)) := by
          simp [List.filter_cons, hx]
        simp only [dedupGo, if_neg hx]
        rw [ih rest hrest (out ++ [x]), hfilter]
        have hxnil : x ∉ ([] : List String) := by simp
        have hstep : dedupGo [] (x :: rest.filter (fun a => decide (a ∉ out))) =
            dedupGo [x] (rest.filter (fun a => decide (a ∉ out))) := by
          simp only [dedupGo, if_neg hxnil, List.nil_append]
        have hflen : (rest.filter (fun a => decide (a ∉ out))).length ≤ n := by
          have := List.length_filter_le (fun a => decide (a ∉ out)) rest
          omega
        rw [hstep, ih _ hflen [x]]
        have hff : (rest.filter (fun a => decide (a ∉ out))).filter
              (fun a => decide (a ∉ [x])) =
            rest.filter (fun a => decide (a ∉ out ++ [x])) := by
          rw [List.filter_filter]
          apply List.filter_congr
          intro a _
          simp [List.mem_append, not_or, And.comm]
        rw [hff, List.append_assoc]

theorem dedupGo_append (xs : List String) (out : List String) :
    dedupGo out xs = out ++ dedupGo [] (xs.filter (fun a => decide (a ∉ out))) :=
  dedupGo_append_of_length_le xs.length xs le_rfl out

/-- The loop satisfies the first-occurrence recursion. -/
theorem dedup_preserve_order_cons (x : String) (xs : List String) :
    dedup_preserve_order (x :: xs) =
      x :: dedup_preserve_order (xs.filter (fun a => !(a == x))) := by
  have h1 : dedup_preserve_order (x :: xs) = dedupGo [x] xs := by
    simp [dedup_preserve_order, dedupGo]
  rw [h1, dedupGo_append]
  have hpred : xs.filter (fun a => decide (a ∉ [x])) =
      xs.filter (fun a => !(a == x)) := by
    apply List.filter_congr
    intro a _
    by_cases h : a = x <;> simp [h]
  rw [hpred]
  rfl

theorem dedup_preserve_order_eq_spec (xs : List String) :
    dedup_preserve_order xs = firstOccurrenceDedup xs := by
  have H : ∀ (n : Nat) (l : List String), l.length ≤ n →
      dedup_preserve_order l = firstOccurrenceDedup l := by
    intro n
    induction n with
    | zero =>
      intro l hl
      have hnil : l = [] := List.eq_nil_of_length_eq_zero (Nat.le_zero.mp hl)
      subst hnil
      simp [dedup_preserve_order, dedupGo, firstOccurrenceDedup]
    | succ n ih =>
      intro l hl
      cases l with
      | nil => simp [dedup_preserve_order, dedupGo, firstOccurrenceDedup]
      | cons x rest =>
        rw [dedup_preserve_order_cons, firstOccurrenceDedup]
        have hlen : (rest.filter (fun a => !(a == x))).length ≤ n := by
          have h1 := List.length_filter_le (fun a => !(a == x)) rest
          simp only [List.length_cons] at hl
          omega
        rw [ih _ hlen]
  exact H xs.length xs le_rfl

theorem mem_dedupGo (xs : List String) :
    ∀ (out : List String) (a : String), a ∈ dedupGo out xs ↔ a ∈ out ∨ a ∈ xs := by
  induction xs with
  | nil => intro out a; simp [dedupGo]
  | cons x rest ih =>
    intro out a
    by_cases hx : x ∈ out
    · simp only [dedupGo, if_pos hx, ih, List.mem_cons]
      constructor
      · rintro (h | h)
        · exact Or.inl h
        · exact Or.inr (Or.inr h)
      · rintro (h | rfl | h)
        · exact Or.inl h
        · exact Or.inl hx
        · exact Or.inr h
    · simp only [dedupGo, if_neg hx, ih, List.mem_append, List.mem_cons,
        List.mem_singleton]
      tauto

theorem nodup_dedupGo (xs : List String) :
    ∀ out : List String, out.Nodup → (dedupGo out xs).Nodup := by
  induction xs with
  | nil => intro out h; exact h
  | cons x rest ih =>
    intro out h
    by_cases hx : x ∈ out
    · simpa [dedupGo, hx] using ih out h
    · have : (out ++ [x]).Nodup := by
        simp [List.nodup_append, h, hx]
      simpa [dedupGo, hx] using ih (out ++ [x]) this

theorem dedup_preserve_order_of_nodup (l : List String) (h : l.Nodup) :
    dedup_preserve_order l = l := by
  induction l with
  | nil => rfl
  | cons x rest ih =>
    rw [dedup_preserve_order_cons]
    have hx : x ∉ rest := (List.nodup_cons.mp h).1
    have hfix : rest.filter (fun a => !(a == x)) = rest := by
      apply List.filter_eq_self.mpr
      intro a ha
      have : a ≠ x := by
        intro rfl_eq; subst rfl_eq; exact hx ha
      simp [this]
    rw [hfix, ih (List.nodup_cons.mp h).2]

/-- C8: `dedup_preserve_order` returns exactly the distinct elements of its
input in order of first occurrence (it coincides with the specification-side
`firstOccurrenceDedup`, is duplicate-free, and preserves membership), and it
is idempotent. -/
theorem dedup_preserve_order_spec :
    (∀ xs : List String, dedup_preserve_order xs = firstOccurrenceDedup xs) ∧
    (∀ xs : List String, (dedup_preserve_order xs).Nodup) ∧
    (∀ (xs : List String) (a : String), a ∈ dedup_preserve_order xs ↔ a ∈ xs) ∧
    (∀ xs : List String,
      dedup_preserve_order (dedup_preserve_order xs) = dedup_preserve_order xs) := by
  refine ⟨dedup_preserve_order_eq_spec, ?_, ?_, ?_⟩
  · intro xs
    exact nodup_dedupGo xs [] List.nodup_nil
  · intro xs a
    simpa using mem_dedupGo xs [] a
  · intro xs
    exact dedup_preserve_order_of_nodup _ (nodup_dedupGo xs [] List.nodup_nil)

/-- A completed subprocess: exit status and captured output streams
(`subprocess.CompletedProcess`). -/
structure CompletedProc where
  returncode : Int
  stdout : String
  stderr : String
deriving DecidableEq, Repr

/-- The world as the hook observes it: the stream of results the remaining
subprocess invocations will produce, the log of commands issued so far (with
their working directories), and the lines printed to standard output. -/
structure Sys where
  procs : List CompletedProc
  log : List (List String × String)
  out : List String
deriving DecidableEq, Repr

/-- Model of `run` from the hook: invoke a command in a working directory, capturing
output.  The oracle stream supplies the result of each successive invocation;
an exhausted stream yields a benign success (any single real execution is
modelled by a long enough stream). -/
def run (cmd : List String) (cwd : String) (s : Sys) : CompletedProc × Sys :=
  match s.procs with
  | [] => (⟨0, "", ""⟩, { s with log := s.log ++ [(cmd, cwd)] })
  | r :: rest => (r, { procs := rest, log := s.log ++ [(cmd, cwd)], out := s.out })

/-- Python `a or b` for strings (the empty string is falsy). -/
def orElseStr (a b : String) : String := if a = "" then b else a

/-- Python truthiness of an optional string (`None` and `""` are falsy). -/
def optStrTruthy : Option String → Bool
  | none => false
  | some e => !(e == "")

/-- Model of `repo_root` from the hook. -/
def repo_root (start_cwd : String) (s : Sys) : (Option String × Option String) × Sys :=
  let p := run ["git", "rev-parse", "--show-toplevel"] start_cwd s
  if p.1.returncode ≠ 0 then
    ((none, some (orElseStr (pyStrip p.1.stderr)
      (orElseStr (pyStrip p.1.stdout) "not a git repository"))), p.2)
  else
    let root := pyStrip p.1.stdout
    if root = "" then
      ((none, some "git rev-parse --show-toplevel returned empty output"), p.2)
    else ((some root, none), p.2)

/-- Model of `ensure_origin_remote` from the hook. -/
def ensure_origin_remote (repo : String) (s : Sys) : (Bool × Option String) × Sys :=
  let remotes := run ["git", "remote"] repo s
  if remotes.1.returncode ≠ 0 then
    ((false, some ("git remote failed: " ++
      orElseStr (pyStrip remotes.1.stderr) (pyStrip remotes.1.stdout))), remotes.2)
  else if "origin" ∈ pySplitWs remotes.1.stdout then ((true, none), remotes.2)
  else ((false, some "git remote \x27origin\x27 not found"), remotes.2)

/-- Model of `fetch_origin_main` from the hook. -/
def fetch_origin_main (repo : String) (s : Sys) : (Bool × Option String) × Sys :=
  let fetch := run ["git", "fetch", "--quiet", "origin", "main"] repo s
  if fetch.1.returncode ≠ 0 then
    ((false, some ("git fetch origin main failed: " ++
      orElseStr (pyStrip fetch.1.stderr) (pyStrip fetch.1.stdout))), fetch.2)
  else ((true, none), fetch.2)

/-- Model of `ref_exists` from the hook (`git show-ref` exit 1 means "absent", other
non-zero statuses are errors). -/
def ref_exists (repo ref : String) (s : Sys) : (Bool × Option String) × Sys :=
  let verify := run ["git", "show-ref", "--verify", "--quiet", ref] repo s
  if verify.1.returncode = 0 then ((true, none), verify.2)
  else if verify.1.returncode = 1 then ((false, none), verify.2)
  else
    ((false, some (orElseStr (pyStrip verify.1.stderr)
      (orElseStr (pyStrip verify.1.stdout) "git show-ref failed"))), verify.2)

/-- Model of `verify_ref` from the hook. -/
def verify_ref (repo ref : String) (s : Sys) : (Bool × Option String) × Sys :=
  let rp := run ["git", "rev-parse", "--verify", "--quiet", ref] repo s
  if rp.1.returncode ≠ 0 then ((false, some ("Cannot resolve " ++ ref)), rp.2)
  else ((true, none), rp.2)

/-- Model of `ensure_origin_main_ref` from the hook: fetch unconditionally when forced,
otherwise fetch only when the remote-tracking ref is absent, re-checking it
afterwards. -/
def ensure_origin_main_ref (repo : String) (always_fetch : Bool) (s : Sys) :
    (Bool × Option String × Bool) × Sys :=
  if always_fetch then
    let f := fetch_origin_main repo s
    if !f.1.1 then ((false, f.1.2, true), f.2)
    else ((true, none, true), f.2)
  else
    let e1 := ref_exists repo "refs/remotes/origin/main" s
    if optStrTruthy e1.1.2 then ((false, e1.1.2, false), e1.2)
    else if e1.1.1 then ((true, none, false), e1.2)
    else
      let f := fetch_origin_main repo e1.2
      if !f.1.1 then ((false, f.1.2, true), f.2)
      else
        let e2 := ref_exists repo "refs/remotes/origin/main" f.2
        if optStrTruthy e2.1.2 then ((false, e2.1.2, true), e2.2)
        else if !e2.1.1 then
          ((false, some "origin/main still missing after fetch", true), e2.2)
        else ((true, none, true), e2.2)

/-- Model of `ensure_origin_main` from the hook. -/
def ensure_origin_main (repo : String) (always_fetch : Bool) (s : Sys) :
    (Bool × Option String × Bool) × Sys :=
  let r1 := ensure_origin_remote repo s
  if !r1.1.1 then ((false, r1.1.2, false), r1.2)
  else
    let r2 := ensure_origin_main_ref repo always_fetch r1.2
    if !r2.1.1 then ((false, r2.1.2.1, r2.1.2.2), r2.2)
    else
      let r3 := verify_ref repo "origin/main" r2.2
      if !r3.1.1 then ((false, r3.1.2, r2.1.2.2), r3.2)
      else ((true, none, r2.1.2.2), r3.2)

/-- Model of `ensure_base_ref` from the hook. -/
def ensure_base_ref (repo base_ref : String) (always_fetch : Bool) (s : Sys) :
    (Bool × Option String × Bool) × Sys :=
  if base_ref = "origin/main" then ensure_origin_main repo always_fetch s
  else
    let v := verify_ref repo base_ref s
    if !v.1.1 then
      ((false, some (orElseStr ((v.1.2).getD "")
        ("Cannot resolve base ref \x27" ++ base_ref ++ "\x27")), false), v.2)
    else ((true, none, false), v.2)

/-- Model of `merge_base` from the hook. -/
def merge_base (repo base_ref : String) (s : Sys) : (Option String × Option String) × Sys :=
  let p := run ["git", "merge-base", base_ref, "HEAD"] repo s
  if p.1.returncode ≠ 0 then
    ((none, some ("git merge-base " ++ base_ref ++ " HEAD failed: " ++
      orElseStr (pyStrip p.1.stderr) (pyStrip p.1.stdout))), p.2)
  else
    let base := pyStrip p.1.stdout
    if base = "" then ((none, some "git merge-base returned empty output"), p.2)
    else ((some base, none), p.2)

/-- Insert into an ascending sorted list. -/
def insertSorted (x : String) : List String → List String
  | [] => [x]
  | y :: ys => if x ≤ y then x :: y :: ys else y :: insertSorted x ys

/-- Python `sorted(set(xs))` for strings. -/
def pySortedSet (xs : List String) : List String :=
  xs.foldl (fun acc x => if x ∈ acc then acc else insertSorted x acc) []

/-- Stripped, non-empty lines of one command output, as `changed_files`
collects them. -/
def outputLines (s : String) : List String :=
  ((pySplitLines s).map pyStrip).filter (fun l => !(l == ""))

/-- Model of `changed_files` from the hook: union of unstaged and staged diffs against
the base commit plus untracked-but-not-ignored files, deduplicated and
sorted. -/
def changed_files (repo base_commit : String) (s : Sys) :
    (Option (List String) × Option String) × Sys :=
  let d1 := run ["git", "diff", "--name-only", base_commit] repo s
  if d1.1.returncode ≠ 0 then
    ((none, some ("git diff --name-only " ++ base_commit ++ " failed: " ++
      orElseStr (pyStrip d1.1.stderr) (pyStrip d1.1.stdout))), d1.2)
  else
    let d2 := run ["git", "diff", "--cached", "--name-only", base_commit] repo d1.2
    if d2.1.returncode ≠ 0 then
      ((none, some ("git diff --cached --name-only " ++ base_commit ++ " failed: " ++
        orElseStr (pyStrip d2.1.stderr) (pyStrip d2.1.stdout))), d2.2)
    else
      let u := run ["git", "ls-files", "--others", "--exclude-standard"] repo d2.2
      if u.1.returncode ≠ 0 then
        ((none, some ("git ls-files failed: " ++
          orElseStr (pyStrip u.1.stderr) (pyStrip u.1.stdout))), u.2)
      else
        ((some (pySortedSet (outputLines d1.1.stdout ++ outputLines d2.1.stdout ++
          outputLines u.1.stdout)), none), u.2)

/-- Characters allowed in a Makefile rule-target word (the regex class that
excludes whitespace, colon, hash and equals). -/
def isRuleChar (c : Char) : Bool :=
  !(pyIsSpace c) && !(c == ':') && !(c == '#') && !(c == '=')

/-- Deterministic rendering of the hook's rule regex: the line must start
with a rule word; its maximal prefix of rule words and whitespace must be
followed by a colon; the captured group is that prefix. -/
def parse_rule_lhs (l : List Char) : Option (List Char) :=
  let pre := l.takeWhile (fun c => isRuleChar c || pyIsSpace c)
  match l.head?, (l.drop pre.length).head? with
  | some c0, some ':' => if isRuleChar c0 then some pre else none
  | _, _ => none

/-- Model of `parse_make_targets` from the hook: scan `make -qp` output for rule lines
and collect their left-hand-side target words, skipping empty lines,
comment/recipe lines and pattern targets. -/
def parse_make_targets (make_stdout : String) : List String :=
  (pySplitLines make_stdout).foldl
    (fun targets line =>
      if line = "" then targets
      else if line.data.head? = some '#' ∨ line.data.head? = some '\t' ∨
          line.data.head? = some ' ' then targets
      else
        match parse_rule_lhs line.data with
        | none => targets
        | some lhs =>
          (pySplitWs (String.mk lhs)).foldl
            (fun ts t =>
              if t.data.contains '%' then ts
              else if t ∈ ts then ts else ts ++ [t])
            targets)
    []

/-- Model of `is_missing_makefile` from the hook. -/
def is_missing_makefile (output : String) : Bool :=
  containsSubstr (pyLower output) "no makefile found"

/-- Model of `get_make_targets` from the hook.  The `makeOnPath` flag models whether
the `make` executable exists (its absence raises `FileNotFoundError`, caught
by the hook); exit status 2 with a "no makefile found" message is an empty
target set, any other exit-2 output is an enumeration error. -/
def get_make_targets (makeOnPath : Bool) (repo : String) (s : Sys) :
    (Option (List String) × Option String) × Sys :=
  if !makeOnPath then ((none, some "make not found on PATH"), s)
  else
    let p := run ["make", "-qp", "--no-print-directory"] repo s
    if p.1.returncode = 2 then
      let combined := pyStrip (pyStrip p.1.stderr ++ "\n" ++ pyStrip p.1.stdout)
      if is_missing_makefile combined then ((some [], none), p.2)
      else ((none, some (orElseStr combined "make -qp failed")), p.2)
    else ((some (parse_make_targets p.1.stdout), none), p.2)

/-- One executed command group (`run_make`'s result dictionary). -/
structure CommandResult where
  kind : String
  cmd : String
  exit_code : Int
  stdout : String
  stderr : String
deriving DecidableEq, Repr

/-- Model of `run_make` from the hook: run the given targets as one `make` invocation,
truncating each captured stream; an empty target list runs nothing. -/
def run_make (repo kind : String) (targets : List String) (max_out : Int) (s : Sys) :
    CommandResult × Sys :=
  if targets = [] then (⟨kind, "", 0, "", ""⟩, s)
  else
    let p := run (["make", "--no-print-directory"] ++ targets) repo s
    (⟨kind, "make " ++ pyJoin " " targets, p.1.returncode,
      truncate p.1.stdout max_out, truncate p.1.stderr max_out⟩, p.2)

/-- Model of `CATS_TO_TARGETS` from the hook. -/
def CATS_TO_TARGETS (category : String) : List String :=
  if category = "python_ts" then ["check-fmt", "lint", "typecheck"]
  else if category = "rust" then ["check-fmt", "lint"]
  else if category = "markdown" then ["markdownlint"]
  else []

def CODE_CATS : List String := ["python_ts", "rust"]

def MD_CATS : List String := ["markdown"]

def TRUTHY_VALUES : List String := ["1", "true", "yes"]

/-- Model of `targets_for_categories` from the hook: expand the enabled categories in
the mapping's fixed python_ts → rust → markdown iteration order, optionally
restricted to `include`, deduplicating while preserving first-seen order. -/
def targets_for_categories (categories : Categories)
    (include? : Option (List String)) : List String :=
  let keep := fun (name : String) (enabled : Bool) =>
    enabled && (match include? with
      | none => true
      | some inc => decide (name ∈ inc))
  dedup_preserve_order
    ((if keep "python_ts" categories.python_ts then CATS_TO_TARGETS "python_ts" else []) ++
     (if keep "rust" categories.rust then CATS_TO_TARGETS "rust" else []) ++
     (if keep "markdown" categories.markdown then CATS_TO_TARGETS "markdown" else []))

/-- The hook's mutable execution state (`HookState` dataclass). -/
structure HookState where
  ok : Bool := true
  base_ref : String := "origin/main"
  base_commit : Option String := none
  changed_files : List String := []
  categories : Categories := default_categories
  make_targets_requested : List String := []
  make_targets_run : List String := []
  make_targets_skipped : List String := []
  commands : List CommandResult := []
  fetched : Bool := false
  error : Option String := none
deriving DecidableEq, Repr

/-- A freshly constructed `HookState` with the given base ref. -/
def HookState.init (base_ref : String) : HookState := { base_ref := base_ref }

/-- Model of `format_reason` from the hook: the multi-line diagnostic transcript used
as the `reason` of a block decision. -/
def format_reason (state : HookState) : String :=
  let lines : List String := ["Post-turn checks failed."]
  let lines := match state.error with
    | some e => if e = "" then lines else lines ++ ["", "Error: " ++ e]
    | none => lines
  let base_ref := orElseStr state.base_ref "?"
  let base_commit := match state.base_commit with
    | some c => orElseStr c "?"
    | none => "?"
  let lines := lines ++ ["", "Diff base: " ++ base_ref ++ " (" ++ base_commit ++ ")"]
  let changed := state.changed_files
  let lines := lines ++
    ["", "Changed files vs " ++ base_ref ++ ": " ++ toString changed.length]
  let lines := lines ++ (changed.take 60).map (fun f => "- " ++ f)
  let lines := if changed.length > 60 then
      lines ++ ["- … (+" ++ toString (changed.length - 60) ++ " more)"]
    else lines
  let detected : List String :=
    (if state.categories.python_ts then ["Python/TypeScript"] else []) ++
    (if state.categories.rust then ["Rust"] else []) ++
    (if state.categories.markdown then ["Markdown"] else [])
  let lines := if detected ≠ [] then
      lines ++ ["", "Detected change types: " ++ pyJoin ", " detected]
    else lines
  let lines := if state.make_targets_requested ≠ [] then
      lines ++ ["", "Requested make targets: " ++ pyJoin " " state.make_targets_requested]
    else lines
  let lines := if state.make_targets_run ≠ [] then
      lines ++ ["Targets run: " ++ pyJoin " " state.make_targets_run]
    else lines
  let lines := if state.make_targets_skipped ≠ [] then
      lines ++ ["Targets skipped (missing): " ++ pyJoin " " state.make_targets_skipped]
    else lines
  let failures := state.commands.filter (fun c => !(c.exit_code == 0))
  let lines := lines ++ (failures.map (fun c =>
      let combined := pyStrip (pyJoin "\n" ([c.stdout, c.stderr].filter (fun x => !(x == ""))))
      ["", "Command failed (exit " ++ toString c.exit_code ++ "): " ++ c.cmd,
        "```", orElseStr combined "(no output captured)", "```"])).flatten
  let lines := lines ++
    ["", "Fix the failures above. The checks will re-run at the end of the next turn."]
  pyJoin "\n" lines

def hexDig (n : Nat) : Char :=
  if n < 10 then Char.ofNat (48 + n) else Char.ofNat (87 + n)

def hex4 (n : Nat) : String :=
  String.mk [hexDig (n / 4096 % 16), hexDig (n / 256 % 16), hexDig (n / 16 % 16),
    hexDig (n % 16)]

/-- Escape one character exactly as Python `json.dumps` (with its default
`ensure_ascii=True`) does inside a string literal. -/
def json_escape_char (c : Char) : String :=
  if c = '"' then "\\\""
  else if c = '\\' then "\\\\"
  else if c = '\n' then "\\n"
  else if c = '\r' then "\\r"
  else if c = '\t' then "\\t"
  else if c = '\x08' then "\\b"
  else if c = '\x0c' then "\\f"
  else if c.toNat < 0x20 then "\\u" ++ hex4 c.toNat
  else if c.toNat < 0x7f then String.mk [c]
  else if c.toNat < 0x10000 then "\\u" ++ hex4 c.toNat
  else
    let v := c.toNat - 0x10000
    "\\u" ++ hex4 (0xd800 + v / 0x400) ++ "\\u" ++ hex4 (0xdc00 + v % 0x400)

def json_escape (s : String) : String :=
  String.join (s.data.map json_escape_char)

/-- The exact line printed by `block_and_print`:
`json.dumps({"decision": "block", "reason": reason})`. -/
def json_dumps_block (reason : String) : String :=
  "\x7b\"decision\": \"block\", \"reason\": \"" ++ json_escape reason ++ "\"\x7d"

/-- Model of `block_and_print` from the hook: print the block payload, return exit
code 0. -/
def block_and_print (state : HookState) (s : Sys) : Int × Sys :=
  (0, { s with out := s.out ++ [json_dumps_block (format_reason state)] })

/-- Model of `fail_state` from the hook: mark the state failed and emit the block
payload. -/
def fail_state (state : HookState) (message : Option String) (s : Sys) :
    Int × HookState × Sys :=
  let state := { state with ok := false, error := message }
  let bp := block_and_print state s
  (bp.1, state, bp.2)

/-- Python f-string rendering of an optional string (`None` prints as
"None"). -/
def pyShowOptStr : Option String → String
  | some e => e
  | none => "None"

/-- Model of `evaluate_changes` from the hook: classify the changed files, expand and
filter targets, run the two independent command groups, and decide. -/
def evaluate_changes (state : HookState) (repo : String) (max_out : Int)
    (makeOnPath : Bool) (s : Sys) : Int × HookState × Sys :=
  let cats := detect_categories state.changed_files
  let state1 := { state with categories := cats }
  let requested := targets_for_categories cats none
  let state2 := { state1 with make_targets_requested := requested }
  if requested = [] then (0, state2, s)
  else
    let gm := get_make_targets makeOnPath repo s
    match gm.1.1 with
    | none =>
      fail_state state2
        (some ("Could not enumerate make targets: " ++ pyShowOptStr gm.1.2)) gm.2
    | some make_targets =>
      let run_targets := requested.filter (fun t => decide (t ∈ make_targets))
      let skip_targets := requested.filter (fun t => decide (t ∉ make_targets))
      let state3 := { state2 with
        make_targets_run := run_targets
        make_targets_skipped := skip_targets }
      let code_targets := (targets_for_categories cats (some CODE_CATS)).filter
        (fun t => decide (t ∈ make_targets))
      let md_targets := (targets_for_categories cats (some MD_CATS)).filter
        (fun t => decide (t ∈ make_targets))
      let r1 := if code_targets = [] then (([] : List CommandResult), gm.2)
        else
          let rm := run_make repo "code" code_targets max_out gm.2
          ([rm.1], rm.2)
      let r2 := if md_targets = [] then (([] : List CommandResult), r1.2)
        else
          let rm := run_make repo "markdown" md_targets max_out r1.2
          ([rm.1], rm.2)
      let commands := r1.1 ++ r2.1
      let state4 := { state3 with commands := commands }
      if commands = [] then (0, state4, r2.2)
      else if commands.all (fun c => c.exit_code == 0) then (0, state4, r2.2)
      else
        let state5 := { state4 with ok := false }
        let bp := block_and_print state5 r2.2
        (bp.1, state5, bp.2)

/-- Model of `run_stop_checks` from the hook.  `gitOnPath` models
`shutil.which("git")`. -/
def run_stop_checks (gitOnPath makeOnPath : Bool) (start_cwd base_ref : String)
    (always_fetch : Bool) (max_out : Int) (s : Sys) : Int × HookState × Sys :=
  let state := HookState.init base_ref
  if !gitOnPath then fail_state state (some "git not found on PATH") s
  else
    let rr := repo_root start_cwd s
    match rr.1.1 with
    | none => (0, state, rr.2)
    | some repo =>
      let eb := ensure_base_ref repo base_ref always_fetch rr.2
      let state1 := { state with fetched := eb.1.2.2 }
      if !eb.1.1 then fail_state state1 eb.1.2.1 eb.2
      else
        let mb := merge_base repo base_ref eb.2
        match mb.1.1 with
        | none => fail_state state1 mb.1.2 mb.2
        | some base_commit =>
          let state2 := { state1 with base_commit := some base_commit }
          let cf := changed_files repo base_commit mb.2
          match cf.1.1 with
          | none => fail_state state2 cf.1.2 cf.2
          | some files =>
            let state3 := { state2 with changed_files := files }
            if files = [] then (0, state3, cf.2)
            else evaluate_changes state3 repo max_out makeOnPath cf.2

/-- JSON values as Python's `json` module materializes them. -/
inductive PyJson where
  | obj : List (String × PyJson) → PyJson
  | arr : List PyJson → PyJson
  | str : String → PyJson
  | num : Int → PyJson
  | boolean : Bool → PyJson
  | null : PyJson

def isObj : PyJson → Bool
  | .obj _ => true
  | _ => false

/-- Python truthiness of a JSON value. -/
def pyTruthy : PyJson → Bool
  | .obj fields => !fields.isEmpty
  | .arr xs => !xs.isEmpty
  | .str s => !(s == "")
  | .num n => !(n == 0)
  | .boolean b => b
  | .null => false

/-- Model of `parse_hook_input` from the hook: `none` models absent or malformed JSON
(a decode error, which is caught); any parsed non-object is replaced by the
empty mapping. -/
def parse_hook_input (stdin : Option PyJson) : List (String × PyJson) :=
  match stdin with
  | some (.obj fields) => fields
  | _ => []

/-- Python `dict.get` on the parsed hook input. -/
def dictGet (d : List (String × PyJson)) (k : String) : Option PyJson :=
  d.lookup k

/-- Model of `resolve_start_cwd` from the hook.  The result is `none` exactly when
`Path(cwd_str)` raises `TypeError`: the hook input holds a truthy non-string
`cwd` value, which the `or` chain passes straight to `Path`. -/
def resolve_start_cwd (hook_input : List (String × PyJson))
    (environ : List (String × String)) (getcwd : String) : Option String :=
  let fallback : Option String :=
    match environ.lookup "CLAUDE_PROJECT_DIR" with
    | some e => if e = "" then some getcwd else some e
    | none => some getcwd
  match dictGet hook_input "cwd" with
  | some v =>
    if pyTruthy v then
      match v with
      | .str cwdStr => some cwdStr
      | _ => none
    else fallback
  | none => fallback

/-- Model of `parse_bool_env` from the hook. -/
def parse_bool_env (value : String) : Bool :=
  decide (pyLower (pyStrip value) ∈ TRUTHY_VALUES)

/-- Validity of the character tail of a Python integer literal: digits with
single underscores strictly between digits. -/
def validTail : List Char → Bool
  | [] => true
  | '_' :: [] => false
  | '_' :: c :: rest => c.isDigit && validTail (c :: rest)
  | c :: rest => c.isDigit && validTail rest

def digitsValue (l : List Char) : Nat :=
  l.foldl (fun acc c => if c = '_' then acc else acc * 10 + (c.toNat - 48)) 0

/-- Python `int(str)` (optional surrounding whitespace, optional sign, ASCII
digits with single underscores between digits); `none` models `ValueError`. -/
def pyParseInt (s : String) : Option Int :=
  let t := (pyStrip s).data
  let signed : Int × List Char :=
    match t with
    | '+' :: rest => (1, rest)
    | '-' :: rest => (-1, rest)
    | _ => (1, t)
  match signed.2 with
  | [] => none
  | c :: rest =>
    if c.isDigit && validTail rest then
      some (signed.1 * (digitsValue (c :: rest) : Int))
    else none

/-- Model of `parse_max_output` from the hook. -/
def parse_max_output (value : String) (default : Int) : Int :=
  match pyParseInt value with
  | some n => n
  | none => default

/-- Python `os.environ.get(k, d)`. -/
def envGetD (environ : List (String × String)) (k d : String) : String :=
  (environ.lookup k).getD d

/-- Model of `parse_env` from the hook. -/
def parse_env (environ : List (String × String)) : String × Bool × Int :=
  (envGetD environ "POST_TURN_BASE_REF" "origin/main",
   parse_bool_env (envGetD environ "POST_TURN_ALWAYS_FETCH" ""),
   parse_max_output (envGetD environ "POST_TURN_MAX_OUTPUT_CHARS" "12000") 12000)

/-- The full invocation environment of one hook run. -/
structure Env where
  stdin : Option PyJson
  environ : List (String × String)
  getcwd : String
  gitOnPath : Bool
  makeOnPath : Bool
  procs : List CompletedProc

/-- Model of `main` from the hook plus the module-level exit convention: `some code`
is a normal `SystemExit(code)`; `none` is an uncaught exception (the process
dies with a traceback on stderr and a non-zero exit status, with nothing
printed to stdout).  The second component is everything printed to standard
output. -/
def hook_main (env : Env) : Option Int × List String :=
  let hook_input := parse_hook_input env.stdin
  match resolve_start_cwd hook_input env.environ env.getcwd with
  | none => (none, [])
  | some start_cwd =>
    let pe := parse_env env.environ
    let r := run_stop_checks env.gitOnPath env.makeOnPath start_cwd pe.1 pe.2.1 pe.2.2
      ⟨env.procs, [], []⟩
    (some r.1, r.2.2.out)

@[simp]
theorem run_out (cmd : List String) (cwd : String) (s : Sys) :
    ((run cmd cwd s).2).out = s.out := by
  rcases s with ⟨ps, lg, ot⟩
  cases ps <;> rfl

@[simp]
theorem repo_root_out (cw : String) (s : Sys) : ((repo_root cw s).2).out = s.out := by
  simp only [repo_root]
  repeat' split
  all_goals simp

@[simp]
theorem ensure_origin_remote_out (repo : String) (s : Sys) :
    ((ensure_origin_remote repo s).2).out = s.out := by
  simp only [ensure_origin_remote]
  repeat' split
  all_goals simp

@[simp]
theorem fetch_origin_main_out (repo : String) (s : Sys) :
    ((fetch_origin_main repo s).2).out = s.out := by
  simp only [fetch_origin_main]
  repeat' split
  all_goals simp

@[simp]
theorem ref_exists_out (repo ref : String) (s : Sys) :
    ((ref_exists repo ref s).2).out = s.out := by
  simp only [ref_exists]
  repeat' split
  all_goals simp

@[simp]
theorem verify_ref_out (repo ref : String) (s : Sys) :
    ((verify_ref repo ref s).2).out = s.out := by
  simp only [verify_ref]
  repeat' split
  all_goals simp

@[simp]
theorem ensure_origin_main_ref_out (repo : String) (af : Bool) (s : Sys) :
    ((ensure_origin_main_ref repo af s).2).out = s.out := by
  simp only [ensure_origin_main_ref]
  repeat' split
  all_goals simp

@[simp]
theorem ensure_origin_main_out (repo : String) (af : Bool) (s : Sys) :
    ((ensure_origin_main repo af s).2).out = s.out := by
  simp only [ensure_origin_main]
  repeat' split
  all_goals simp

@[simp]
theorem ensure_base_ref_out (repo br : String) (af : Bool) (s : Sys) :
    ((ensure_base_ref repo br af s).2).out = s.out := by
  simp only [ensure_base_ref]
  repeat' split
  all_goals simp

@[simp]
theorem merge_base_out (repo br : String) (s : Sys) :
    ((merge_base repo br s).2).out = s.out := by
  simp only [merge_base]
  repeat' split
  all_goals simp

@[simp]
theorem changed_files_out (repo bc : String) (s : Sys) :
    ((changed_files repo bc s).2).out = s.out := by
  simp only [changed_files]
  repeat' split
  all_goals simp

@[simp]
theorem get_make_targets_out (mk : Bool) (repo : String) (s : Sys) :
    ((get_make_targets mk repo s).2).out = s.out := by
  simp only [get_make_targets]
  repeat' split
  all_goals simp

@[simp]
theorem run_make_out (repo kind : String) (targets : List String) (mo : Int) (s : Sys) :
    ((run_make repo kind targets mo s).2).out = s.out := by
  simp only [run_make]
  repeat' split
  all_goals simp

theorem block_and_print_eq (st : HookState) (s : Sys) :
    block_and_print st s =
      (0, { s with out := s.out ++ [json_dumps_block (format_reason st)] }) := rfl

theorem fail_state_eq (st : HookState) (msg : Option String) (s : Sys) :
    fail_state st msg s =
      (0, { st with ok := false, error := msg },
        { s with out := s.out ++
          [json_dumps_block (format_reason { st with ok := false, error := msg })] }) := rfl

/-- Every path through `evaluate_changes` returns exit code 0 and either
prints nothing or appends exactly one block payload. -/
theorem evaluate_changes_exit_out (st : HookState) (repo : String) (mo : Int)
    (mk : Bool) (s : Sys) :
    (evaluate_changes st repo mo mk s).1 = 0 ∧
    ((evaluate_changes st repo mo mk s).2.2.out = s.out ∨
      ∃ r, (evaluate_changes st repo mo mk s).2.2.out = s.out ++ [json_dumps_block r]) := by
  simp only [evaluate_changes]
  repeat' split
  all_goals simp [fail_state_eq, block_and_print_eq]

/-- Every path through `run_stop_checks` returns exit code 0 and either
prints nothing or appends exactly one block payload. -/
theorem run_stop_checks_exit_out (g mk : Bool) (cw br : String) (af : Bool)
    (mo : Int) (s : Sys) :
    (run_stop_checks g mk cw br af mo s).1 = 0 ∧
    ((run_stop_checks g mk cw br af mo s).2.2.out = s.out ∨
      ∃ r, (run_stop_checks g mk cw br af mo s).2.2.out = s.out ++ [json_dumps_block r]) := by
  simp only [run_stop_checks]
  repeat' split
  all_goals try simp [fail_state_eq, block_and_print_eq]
  -- the remaining branch hands over to evaluate_changes
  all_goals
    refine ⟨(evaluate_changes_exit_out _ _ _ _ _).1, ?_⟩
    rcases (evaluate_changes_exit_out _ _ _ _ _).2 with h | ⟨r, h⟩
    · exact Or.inl (by rw [h]; simp)
    · exact Or.inr ⟨r, by rw [h]; simp⟩

/-- The fallback of `resolve_start_cwd` always yields a directory. -/
theorem resolve_start_cwd_some_of_good_cwd (hook_input : List (String × PyJson))
    (environ : List (String × String)) (getcwd : String)
    (hcwd : ∀ v, dictGet hook_input "cwd" = some v → pyTruthy v = true →
      ∃ cw, v = PyJson.str cw) :
    ∃ cw, resolve_start_cwd hook_input environ getcwd = some cw := by
  simp only [resolve_start_cwd]
  cases hd : dictGet hook_input "cwd" with
  | none =>
    cases henv : environ.lookup "CLAUDE_PROJECT_DIR" with
    | none => exact ⟨getcwd, rfl⟩
    | some e =>
      by_cases he : e = "" <;> simp [he]
  | some v =>
    by_cases ht : pyTruthy v = true
    · obtain ⟨cw, rfl⟩ := hcwd v hd ht
      exact ⟨cw, by simp [ht]⟩
    · have ht' : pyTruthy v = false := by revert ht; cases pyTruthy v <;> simp
      cases henv : environ.lookup "CLAUDE_PROJECT_DIR" with
      | none => exact ⟨getcwd, by simp [ht']⟩
      | some e =>
        by_cases he : e = "" <;> simp [ht', he]

/-- C1 (amended): for every environment in which the hook input's `cwd`
field, when present and truthy, is a string, the process exits with status 0
and writes either nothing (allow) or exactly one JSON object of the form
`{"decision": "block", "reason": ...}` (block) to standard output. -/
theorem hook_main_exit_zero_single_payload (env : Env)
    (hcwd : ∀ v, dictGet (parse_hook_input env.stdin) "cwd" = some v →
      pyTruthy v = true → ∃ cw, v = PyJson.str cw) :
    (hook_main env).1 = some 0 ∧
    ((hook_main env).2 = [] ∨ ∃ r, (hook_main env).2 = [json_dumps_block r]) := by
  obtain ⟨cw, hres⟩ := resolve_start_cwd_some_of_good_cwd
    (parse_hook_input env.stdin) env.environ env.getcwd hcwd
  simp only [hook_main, hres]
  have h := run_stop_checks_exit_out env.gitOnPath env.makeOnPath cw
    (parse_env env.environ).1 (parse_env env.environ).2.1 (parse_env env.environ).2.2
    ⟨env.procs, [], []⟩
  refine ⟨by rw [h.1], ?_⟩
  rcases h.2 with hout | ⟨r, hout⟩
  · exact Or.inl hout
  · exact Or.inr ⟨r, hout⟩

/-- Witness for the amended C1 theorem: a concrete environment with no hook
input, which exits 0 and prints nothing. -/
theorem hook_main_exit_zero_single_payload_witness :
    (hook_main ⟨none, [], "/w", true, true, []⟩).1 = some 0 ∧
    ((hook_main ⟨none, [], "/w", true, true, []⟩).2 = [] ∨
      ∃ r, (hook_main ⟨none, [], "/w", true, true, []⟩).2 = [json_dumps_block r]) :=
  hook_main_exit_zero_single_payload ⟨none, [], "/w", true, true, []⟩
    (fun _ h _ => nomatch h)

/-- C1 counterexample: when standard input is the JSON object
`{"cwd": 123}`, the `or` chain in `resolve_start_cwd` passes the truthy
integer to `Path`, which raises `TypeError`; the exception is uncaught, so
the process dies with a traceback and a non-zero exit status (modelled by
`none`), refuting "for every input and environment, the process exits with
status 0". -/
theorem hook_main_crashes_on_truthy_nonstring_cwd :
    (hook_main ⟨some (.obj [("cwd", PyJson.num 123)]), [], "/w", true, true, []⟩).1 =
      none := rfl

/-- C2: when at least one command group was executed, the decision is allow
(nothing is printed) exactly when every executed group's exit code is zero;
any non-zero group yields a block (exactly one payload printed). -/
theorem evaluate_changes_allow_iff_all_zero (st : HookState) (repo : String)
    (mo : Int) (mk : Bool) (s : Sys) (h0 : st.commands = [])
    (hne : (evaluate_changes st repo mo mk s).2.1.commands ≠ []) :
    ((evaluate_changes st repo mo mk s).2.2.out = s.out ↔
      ∀ c ∈ (evaluate_changes st repo mo mk s).2.1.commands, c.exit_code = 0) := by
  revert hne
  simp only [evaluate_changes]
  repeat' split
  all_goals intro hne
  all_goals simp_all [fail_state_eq, block_and_print_eq]

/-- Witness for C2 at a concrete execution: one Python file changed, all
three code targets defined, the code group succeeds, and the decision is
allow with every exit code zero. -/
theorem evaluate_changes_allow_iff_all_zero_witness :
    ((evaluate_changes { HookState.init "origin/main" with changed_files := ["a.py"] }
        "/repo" 12000 true
        ⟨[⟨0, "check-fmt:\nlint:\ntypecheck:\n", ""⟩, ⟨0, "", ""⟩], [], []⟩).2.2.out =
      (⟨[⟨0, "check-fmt:\nlint:\ntypecheck:\n", ""⟩, ⟨0, "", ""⟩], [], []⟩ : Sys).out ↔
      ∀ c ∈ (evaluate_changes { HookState.init "origin/main" with changed_files := ["a.py"] }
        "/repo" 12000 true
        ⟨[⟨0, "check-fmt:\nlint:\ntypecheck:\n", ""⟩, ⟨0, "", ""⟩], [], []⟩).2.1.commands,
        c.exit_code = 0) :=
  evaluate_changes_allow_iff_all_zero
    { HookState.init "origin/main" with changed_files := ["a.py"] }
    "/repo" 12000 true
    ⟨[⟨0, "check-fmt:\nlint:\ntypecheck:\n", ""⟩, ⟨0, "", ""⟩], [], []⟩
    rfl (by decide)

/-- A category set whose code-restricted target expansion is non-empty also
has a non-empty unrestricted expansion. -/
theorem targets_none_ne_nil_of_code (cats : Categories)
    (h : targets_for_categories cats (some CODE_CATS) ≠ []) :
    targets_for_categories cats none ≠ [] := by
  rcases cats with ⟨p, r, m⟩
  cases p <;> cases r <;> cases m <;> revert h <;> decide

/-- C3: whenever both the code group and the markdown group have at least one
target present in the build configuration, both groups are invoked and both
results are recorded, in order; the markdown group's result is computed by
`run_make` on the oracle continuation alone, independently of the code
group's exit code (and vice versa), so neither group's failure suppresses the
other. -/
theorem evaluate_changes_runs_both_groups (st : HookState) (repo : String)
    (mo : Int) (mk : Bool) (s : Sys) (make_targets : List String) (s1 : Sys)
    (hmk : get_make_targets mk repo s = ((some make_targets, none), s1))
    (codeT mdT : List String)
    (hct : codeT = (targets_for_categories (detect_categories st.changed_files)
      (some CODE_CATS)).filter (fun t => decide (t ∈ make_targets)))
    (hmt : mdT = (targets_for_categories (detect_categories st.changed_files)
      (some MD_CATS)).filter (fun t => decide (t ∈ make_targets)))
    (hcode : codeT ≠ []) (hmd : mdT ≠ []) :
    (evaluate_changes st repo mo mk s).2.1.commands =
      [(run_make repo "code" codeT mo s1).1,
       (run_make repo "markdown" mdT mo (run_make repo "code" codeT mo s1).2).1] := by
  have hccats : targets_for_categories (detect_categories st.changed_files)
      (some CODE_CATS) ≠ [] := by
    intro hnil
    rw [hnil] at hct
    simp at hct
    exact hcode hct
  have hreq : targets_for_categories (detect_categories st.changed_files) none ≠ [] :=
    targets_none_ne_nil_of_code _ hccats
  simp only [evaluate_changes, hmk]
  rw [if_neg (by exact hreq)]
  rw [← hct, ← hmt, if_neg hcode, if_neg hmd]
  split
  · rename_i hc
    exact absurd hc (by simp)
  · split <;> rfl

/-- Witness for C3 at a concrete execution in which the code group fails
(exit 2) and the markdown group still runs and is recorded with its own exit
code 0. -/
theorem evaluate_changes_runs_both_groups_witness :
    (evaluate_changes { HookState.init "origin/main" with changed_files := ["a.py", "b.md"] }
        "/repo" 12000 true
        ⟨[⟨0, "check-fmt:\nlint:\ntypecheck:\nmarkdownlint:\n", ""⟩,
          ⟨2, "boom", "err"⟩, ⟨0, "", ""⟩], [], []⟩).2.1.commands =
      [(run_make "/repo" "code" ["check-fmt", "lint", "typecheck"] 12000
          ⟨[⟨2, "boom", "err"⟩, ⟨0, "", ""⟩],
            [(["make", "-qp", "--no-print-directory"], "/repo")], []⟩).1,
       (run_make "/repo" "markdown" ["markdownlint"] 12000
          (run_make "/repo" "code" ["check-fmt", "lint", "typecheck"] 12000
            ⟨[⟨2, "boom", "err"⟩, ⟨0, "", ""⟩],
              [(["make", "-qp", "--no-print-directory"], "/repo")], []⟩).2).1] :=
  evaluate_changes_runs_both_groups
    { HookState.init "origin/main" with changed_files := ["a.py", "b.md"] }
    "/repo" 12000 true
    ⟨[⟨0, "check-fmt:\nlint:\ntypecheck:\nmarkdownlint:\n", ""⟩,
      ⟨2, "boom", "err"⟩, ⟨0, "", ""⟩], [], []⟩
    ["check-fmt", "lint", "typecheck", "markdownlint"]
    ⟨[⟨2, "boom", "err"⟩, ⟨0, "", ""⟩],
      [(["make", "-qp", "--no-print-directory"], "/repo")], []⟩
    (by decide)
    ["check-fmt", "lint", "typecheck"] ["markdownlint"]
    (by decide) (by decide) (by decide) (by decide)

/-- C6: when every changed file's lowercase extension lies outside the three
known extension sets, `evaluate_changes` allows immediately (exit 0, nothing
printed), the requested-target list is empty, and the world is untouched — no
build-tool enumeration and no command execution occur (the oracle stream,
the command log and standard output are all unchanged). -/
theorem evaluate_changes_unknown_exts_allow (st : HookState) (repo : String)
    (mo : Int) (mk : Bool) (s : Sys)
    (h : ∀ f ∈ st.changed_files, extKey f ∉ PY_TS_EXTS ∧ extKey f ∉ RUST_EXTS ∧
      extKey f ∉ MD_EXTS) :
    evaluate_changes st repo mo mk s =
      (0, { st with categories := default_categories, make_targets_requested := [] }, s) := by
  have hcats : detect_categories st.changed_files = default_categories := by
    rw [detect_categories_eq_any]
    have h1 : st.changed_files.any (fun f => decide (extKey f ∈ PY_TS_EXTS)) = false := by
      rw [List.any_eq_false]
      intro f hf
      simpa using (h f hf).1
    have h2 : st.changed_files.any (fun f => decide (extKey f ∈ RUST_EXTS)) = false := by
      rw [List.any_eq_false]
      intro f hf
      simpa using (h f hf).2.1
    have h3 : st.changed_files.any (fun f => decide (extKey f ∈ MD_EXTS)) = false := by
      rw [List.any_eq_false]
      intro f hf
      simpa using (h f hf).2.2
    rw [h1, h2, h3]
    rfl
  simp only [evaluate_changes, hcats]
  rfl

/-- Witness for C6: a single changed text file yields an immediate allow with
no requested targets and an untouched world. -/
theorem evaluate_changes_unknown_exts_allow_witness :
    evaluate_changes { HookState.init "origin/main" with changed_files := ["notes.txt"] }
        "/repo" 12000 true ⟨[], [], []⟩ =
      (0, { { HookState.init "origin/main" with changed_files := ["notes.txt"] } with
        categories := default_categories, make_targets_requested := [] },
        ⟨[], [], []⟩) :=
  evaluate_changes_unknown_exts_allow
    { HookState.init "origin/main" with changed_files := ["notes.txt"] }
    "/repo" 12000 true ⟨[], [], []⟩ (by decide)

/-- C7: when the repository-root query fails (the starting directory is not
inside a git working tree), `run_stop_checks` allows silently: exit status 0,
nothing printed, and no error recorded. -/
theorem run_stop_checks_allows_outside_repo (mk : Bool) (cw br : String)
    (af : Bool) (mo : Int) (s : Sys)
    (h : ((repo_root cw s).1).1 = none) :
    (run_stop_checks true mk cw br af mo s).1 = 0 ∧
    (run_stop_checks true mk cw br af mo s).2.2.out = s.out ∧
    (run_stop_checks true mk cw br af mo s).2.1.error = none := by
  have hrun : run_stop_checks true mk cw br af mo s =
      (0, HookState.init br, (repo_root cw s).2) := by
    simp only [run_stop_checks, h]
    rfl
  rw [hrun]
  exact ⟨rfl, by simp, rfl⟩

/-- Witness for C7: a failing `git rev-parse --show-toplevel` (exit 128)
yields the silent allow. -/
theorem run_stop_checks_allows_outside_repo_witness :
    (run_stop_checks true true "/w" "origin/main" false 12000
      ⟨[⟨128, "", "fatal: not a git repository"⟩], [], []⟩).1 = 0 ∧
    (run_stop_checks true true "/w" "origin/main" false 12000
      ⟨[⟨128, "", "fatal: not a git repository"⟩], [], []⟩).2.2.out =
      (⟨[⟨128, "", "fatal: not a git repository"⟩], [], []⟩ : Sys).out ∧
    (run_stop_checks true true "/w" "origin/main" false 12000
      ⟨[⟨128, "", "fatal: not a git repository"⟩], [], []⟩).2.1.error = none :=
  run_stop_checks_allows_outside_repo true "/w" "origin/main" false 12000
    ⟨[⟨128, "", "fatal: not a git repository"⟩], [], []⟩ (by decide)

theorem ite_append_else_self {α : Type} (c : Prop) [Decidable c] (l x : List α) :
    (if c then l ++ x else l) = l ++ (if c then x else []) := by
  split <;> simp

theorem foldl_join_acc (sep : String) (l : List String) :
    ∀ a b : String, l.foldl (fun acc x => acc ++ sep ++ x) (a ++ b) =
      a ++ l.foldl (fun acc x => acc ++ sep ++ x) b := by
  induction l with
  | nil => intro a b; rfl
  | cons x rest ih =>
    intro a b
    simp only [List.foldl_cons]
    have hassoc : a ++ b ++ sep ++ x = a ++ (b ++ sep ++ x) := by
      apply String.ext
      simp [String.data_append, List.append_assoc]
    rw [hassoc, ih]

/-- The third line of a joined line list is a substring-aligned block: the
join splits as text before it, the line itself, and text after it. -/
theorem pyJoin_extract_third (a b c : String) (rest : List String) :
    ∃ x y : String, pyJoin "\n" (a :: b :: c :: rest) = x ++ (c ++ y) := by
  refine ⟨(a ++ "\n" ++ b) ++ "\n",
    rest.foldl (fun acc z => acc ++ "\n" ++ z) "", ?_⟩
  simp only [pyJoin, List.foldl_cons]
  have h1 : a ++ "\n" ++ b ++ "\n" ++ c = ((a ++ "\n" ++ b) ++ "\n") ++ (c ++ "") := by
    apply String.ext
    simp [String.data_append, List.append_assoc]
  rw [h1, foldl_join_acc, foldl_join_acc]

theorem containsSubstr_of_split (hay x needle y : String)
    (h : hay = x ++ (needle ++ y)) : containsSubstr hay needle = true := by
  subst h
  rw [containsSubstr, List.any_eq_true]
  refine ⟨needle.data ++ y.data, ?_, ?_⟩
  · rw [List.mem_tails]
    have hd : (x ++ (needle ++ y)).data = x.data ++ (needle.data ++ y.data) := by
      simp [String.data_append]
    rw [hd]
    exact List.suffix_append _ _
  · rw [ List.isPrefixOf_iff_prefix]
    exact List.prefix_append _ _

/-- Whenever the state carries a non-empty error, the formatted reason has
the `Error:` line as its third line. -/
theorem format_reason_lines (st : HookState) (e : String)
    (he : st.error = some e) (hne : e ≠ "") :
    ∃ rest : List String, format_reason st =
      pyJoin "\n" ("Post-turn checks failed." :: "" :: ("Error: " ++ e) :: rest) := by
  simp only [format_reason, he]
  rw [if_neg hne]
  simp only [ite_append_else_self]
  simp only [List.append_assoc, List.cons_append, List.nil_append]
  exact ⟨_, rfl⟩

/-- The formatted reason of a failed state contains the error text. -/
theorem format_reason_contains_error (st : HookState) (e : String)
    (he : st.error = some e) (hne : e ≠ "") :
    containsSubstr (format_reason st) ("Error: " ++ e) = true := by
  obtain ⟨rest, hfr⟩ := format_reason_lines st e he hne
  obtain ⟨x, y, hxy⟩ := pyJoin_extract_third "Post-turn checks failed." ""
    ("Error: " ++ e) rest
  exact containsSubstr_of_split _ x _ y (by rw [hfr, hxy])

/-- The formatted reason of a failed state contains the raw error text
itself. -/
theorem format_reason_contains_error_text (st : HookState) (e : String)
    (he : st.error = some e) (hne : e ≠ "") :
    containsSubstr (format_reason st) e = true := by
  obtain ⟨rest, hfr⟩ := format_reason_lines st e he hne
  obtain ⟨x, y, hxy⟩ := pyJoin_extract_third "Post-turn checks failed." ""
    ("Error: " ++ e) rest
  apply containsSubstr_of_split _ (x ++ "Error: ") _ y
  rw [hfr, hxy]
  apply String.ext
  simp [String.data_append, List.append_assoc]

/-- C9: with no `git` executable on `PATH`, the hook blocks before any
repository detection: it returns 0, issues no command (the log and the oracle
stream are untouched), and prints exactly one block payload whose reason
contains the text "git not found on PATH" — in contrast to a missing
repository, which allows silently. -/
theorem run_stop_checks_no_git_blocks (mk : Bool) (cw br : String) (af : Bool)
    (mo : Int) (s : Sys) :
    run_stop_checks false mk cw br af mo s =
      (0, { HookState.init br with ok := false, error := some "git not found on PATH" },
        { s with out := s.out ++ [json_dumps_block (format_reason
          { HookState.init br with
            ok := false
            error := some "git not found on PATH" })] }) ∧
    containsSubstr (format_reason
      { HookState.init br with ok := false, error := some "git not found on PATH" })
      "git not found on PATH" = true := by
  constructor
  · rfl
  · exact format_reason_contains_error_text _ _ rfl (by decide)

/-- C10: well-formed JSON on standard input that is not an object (array,
string, number, boolean or null) parses to the empty mapping, exactly as
absent or malformed JSON does, so working-directory resolution falls back to
the project-root environment variable (when set and non-empty) or the
process's own working directory. -/
theorem parse_hook_input_non_object_like_empty (j : PyJson) (hj : isObj j = false)
    (environ : List (String × String)) (getcwd : String) :
    parse_hook_input (some j) = [] ∧
    parse_hook_input none = [] ∧
    resolve_start_cwd (parse_hook_input (some j)) environ getcwd =
      resolve_start_cwd (parse_hook_input none) environ getcwd ∧
    resolve_start_cwd (parse_hook_input (some j)) environ getcwd =
      some (match environ.lookup "CLAUDE_PROJECT_DIR" with
        | some e => if e = "" then getcwd else e
        | none => getcwd) := by
  have hpe : parse_hook_input (some j) = [] := by
    cases j <;> simp_all [parse_hook_input, isObj]
  refine ⟨hpe, rfl, by rw [hpe]; rfl, ?_⟩
  rw [hpe]
  simp only [resolve_start_cwd, dictGet, List.lookup]
  cases environ.lookup "CLAUDE_PROJECT_DIR" with
  | none => rfl
  | some e => by_cases he : e = "" <;> simp [he]

/-- Witness for C10: an empty JSON array on stdin with the project-root
variable set. -/
theorem parse_hook_input_non_object_like_empty_witness :
    parse_hook_input (some (PyJson.arr [])) = [] ∧
    parse_hook_input none = [] ∧
    resolve_start_cwd (parse_hook_input (some (PyJson.arr [])))
        [("CLAUDE_PROJECT_DIR", "/proj")] "/w" =
      resolve_start_cwd (parse_hook_input none)
        [("CLAUDE_PROJECT_DIR", "/proj")] "/w" ∧
    resolve_start_cwd (parse_hook_input (some (PyJson.arr [])))
        [("CLAUDE_PROJECT_DIR", "/proj")] "/w" =
      some (match ([("CLAUDE_PROJECT_DIR", "/proj")] : List (String × String)).lookup
          "CLAUDE_PROJECT_DIR" with
        | some e => if e = "" then "/w" else e
        | none => "/w") :=
  parse_hook_input_non_object_like_empty (PyJson.arr []) rfl
    [("CLAUDE_PROJECT_DIR", "/proj")] "/w"
